import Mathlib

/-!
Shallow embedding of `mimic-iv-waveforms/extract_metadata.py` and
`mimic-iv-waveforms/update_records.py`.

Conventions of the embedding:
* Python floats are modelled as `ℚ` (all arithmetic in the scripts is
  division/addition of small integral quantities; no rounding behaviour of
  binary floating point is relied on by the properties checked here).
* Python `datetime` values are modelled as `Nat` seconds since
  0001-01-01 00:00:00 (proleptic Gregorian calendar, the calendar used by
  Python's `datetime`).  `datetime` addition with a `timedelta` that leaves
  the representable range [0001-01-01, 9999-12-31 23:59:59] raises
  `OverflowError` in Python; this is modelled by `addSeconds` returning
  `none` (the script catches the exception and emits an empty field).
* Optional / absent header attributes (`hasattr` checks, `None` values)
  are modelled with `Option`.
* `re.search` with the three fixed patterns of the scripts
  (`hadm_id\s+(\d+)`, `hospital admission id[:\s]+(\d+)`,
  `subject_id\s+(\d+)`, all `re.IGNORECASE`) is modelled by a direct
  leftmost-match scanner over the lower-cased character list; the character
  classes `\s` and `\d` are modelled over ASCII.
-/

/-! ## String utilities -/

/-- `pat` occurs as a contiguous substring of `hay` (Python's `in` on `str`). -/
def listHasSub (pat : List Char) : List Char → Bool
  | [] => pat.isEmpty
  | c :: rest => pat.isPrefixOf (c :: rest) || listHasSub pat rest

/-- Python `pat in hay` for strings. -/
def strContains (hay pat : String) : Bool :=
  listHasSub pat.toList hay.toList

/-- Python `s.upper()` (ASCII case mapping; the labels and comments handled
by the scripts are ASCII). -/
def strUpper (s : String) : String :=
  String.mk (s.toList.map Char.toUpper)

/-- Python `s.lower()` (ASCII case mapping). -/
def strLower (s : String) : String :=
  String.mk (s.toList.map Char.toLower)

/-- Python `s.startswith(p)`. -/
def strStartsWith (s p : String) : Bool :=
  p.toList.isPrefixOf s.toList

/-- Python `s.endswith(p)`. -/
def strEndsWith (s p : String) : Bool :=
  p.toList.isSuffixOf s.toList

/-- ASCII model of Python's regex `\s` class. -/
def isPySpace (c : Char) : Bool :=
  c = ' ' || c = '\t' || c = '\n' || c = '\r' || c.toNat = 11 || c.toNat = 12

/-- Numeric value of a string of decimal digits (Python `int` on the capture). -/
def natOfDigits (s : String) : Nat :=
  s.toList.foldl (fun a c => a * 10 + (c.toNat - 48)) 0

/-- Model of Python `int(s)` for the strings produced by this code base:
succeeds exactly on non-empty all-digit strings.  (Python's `int` also
accepts surrounding whitespace, a sign and digit-group underscores; none of
those occur in directory names considered here.) -/
def pyNatParse (s : String) : Option Nat :=
  if s.length ≠ 0 && s.toList.all Char.isDigit then some (natOfDigits s) else none

/-- Python `int(x)` on a float/rational: truncation toward zero. -/
def pyTrunc (q : ℚ) : Int :=
  if 0 ≤ q then Int.floor q else -(Int.floor (-q))

/-- After the literal part of one of the fixed patterns has matched, match
`[cls]+(\d+)`: one or more characters of class `cls`, then one or more
digits, returning the digit capture group. -/
def matchClassDigits (cls : Char → Bool) (cs : List Char) : Option String :=
  let sp := cs.span cls
  if sp.1.isEmpty then none
  else
    let ds := sp.2.span Char.isDigit
    if ds.1.isEmpty then none else some (String.mk ds.1)

/-- Leftmost `re.search` for a pattern `lit[cls]+(\d+)` over a character
list, returning the digit capture group of the leftmost match. -/
def searchLitClassDigits (lit : List Char) (cls : Char → Bool) : List Char → Option String
  | [] => none
  | c :: rest =>
    if lit.isPrefixOf (c :: rest) then
      match matchClassDigits cls ((c :: rest).drop lit.length) with
      | some d => some d
      | none => searchLitClassDigits lit cls rest
    else searchLitClassDigits lit cls rest

/-- `re.search(r'hadm_id\s+(\d+)', comment, re.IGNORECASE)`, digit capture. -/
def searchHadm (comment : String) : Option String :=
  searchLitClassDigits "hadm_id".toList isPySpace (strLower comment).toList

/-- `re.search(r'hospital admission id[:\s]+(\d+)', comment, re.IGNORECASE)`. -/
def searchHosp (comment : String) : Option String :=
  searchLitClassDigits "hospital admission id".toList
    (fun ch => ch = ':' || isPySpace ch) (strLower comment).toList

/-- `re.search(r'subject_id\s+(\d+)', comment, re.IGNORECASE)`. -/
def searchSubj (comment : String) : Option String :=
  searchLitClassDigits "subject_id".toList isPySpace (strLower comment).toList

/-! ## Datetime model

Seconds since 0001-01-01 00:00:00, proleptic Gregorian.  Conversion between
day counts and calendar dates follows the standard civil-calendar algorithm
(era = 400-year cycle of 146097 days anchored at 0000-03-01). -/

/-- Last representable second of Python's `datetime`
(9999-12-31 23:59:59; sub-second precision is irrelevant because the
scripts format with second resolution). -/
def maxPySecond : Nat := 3652059 * 86400 - 1

/-- Left-pad the decimal representation of `n` with zeros to width `w`
(`strftime` zero padding). -/
def padNum (w : Nat) (n : Nat) : String :=
  let s := Nat.repr n
  String.mk (List.replicate (w - s.length) '0') ++ s

/-- `strftime('%Y-%m-%d %H:%M:%S')` on a datetime given as seconds since
0001-01-01 00:00:00. -/
def fmtDT (t : Nat) : String :=
  let days := t / 86400
  let rem := t % 86400
  let z := days + 306
  let era := z / 146097
  let doe := z % 146097
  let yoe := (doe - doe / 1460 + doe / 36524 - doe / 146096) / 365
  let y := yoe + era * 400
  let doy := doe - (365 * yoe + yoe / 4 - yoe / 100)
  let mp := (5 * doy + 2) / 153
  let d := doy - (153 * mp + 2) / 5 + 1
  let m := if mp < 10 then mp + 3 else mp - 9
  let year := if m ≤ 2 then y + 1 else y
  padNum 4 year ++ "-" ++ padNum 2 m ++ "-" ++ padNum 2 d ++ " " ++
    padNum 2 (rem / 3600) ++ ":" ++ padNum 2 (rem % 3600 / 60) ++ ":" ++ padNum 2 (rem % 60)

/-- Seconds since 0001-01-01 00:00:00 of a calendar datetime (input builder
for concrete test points; assumes a valid proleptic Gregorian date). -/
def secondsOfDate (y m d hh mi ss : Nat) : Nat :=
  let y' := y - (if m ≤ 2 then 1 else 0)
  let era := y' / 400
  let yoe := y' % 400
  let mp := if m ≤ 2 then m + 9 else m - 3
  let doy := (153 * mp + 2) / 5 + d - 1
  let doe := yoe * 365 + yoe / 4 - yoe / 100 + doy
  ((era * 146097 + doe) - 306) * 86400 + hh * 3600 + mi * 60 + ss

/-- `base + timedelta(seconds=off)`: `none` models Python's
`OverflowError` (result outside `datetime`'s representable range), which
the scripts catch and turn into an empty field. -/
def addSeconds (base : Nat) (off : ℚ) : Option Nat :=
  let fl : Int := Int.floor ((base : ℚ) + off)
  if 0 ≤ fl ∧ fl ≤ (maxPySecond : Int) then some fl.toNat else none

/-! ## Signal classifier (`categorize_signal_type`, extract_metadata.py) -/

/-- Embedding of `categorize_signal_type` (extract_metadata.py, lines
85-105): upper-case the label, then check ECG (equality or prefix against
the lead list), Pressure (substring against the pressure list), then the
`PLETH` / `RESP` / `CO2` substring rules, first match winning. -/
def categorize_signal_type (signal_name : String) : String :=
  let signal_name_upper := strUpper signal_name
  let ecg_leads := ["I", "II", "III", "AVR", "AVL", "AVF", "V", "V1", "V2", "V3",
    "V4", "V5", "V6", "MCL", "AI", "AS", "ES"]
  let pressure_types := ["ABP", "ART", "AO", "BAP", "CVP", "FAP", "ICP", "IC1",
    "IC2", "LAP", "PAP", "RAP", "UAP", "UVP", "P", "P1", "P2", "P4"]
  if ecg_leads.any (fun lead => signal_name_upper == lead || strStartsWith signal_name_upper lead)
  then "ECG"
  else if pressure_types.any (fun pt => strContains signal_name_upper pt)
  then "Pressure"
  else if strContains signal_name_upper "PLETH" then "Plethysmogram"
  else if strContains signal_name_upper "RESP" then "Respiration"
  else if strContains signal_name_upper "CO2" then "Capnography"
  else "Other"

/-! ## What one comment contributes in the scan loop -/

/-- The admission-id capture a single comment contributes in the code's
scan: a comment containing `hadm_id` attempts only the `hadm_id` pattern;
a comment not containing `hadm_id` but containing `hospital admission id`
attempts only the hospital pattern; anything else (including a guarded
comment whose pattern fails) contributes nothing. -/
def codeHadmMatch (comment : String) : Option String :=
  if strContains (strLower comment) "hadm_id" then searchHadm comment
  else if strContains (strLower comment) "hospital admission id" then searchHosp comment
  else none

/-- The subject-id capture a single comment contributes in the code's scan. -/
def codeSubjMatch (comment : String) : Option Nat :=
  if strContains (strLower comment) "subject_id" then (searchSubj comment).map natOfDigits
  else none

/-- Formalisation of the claim's wording for C3 (not of the code): a
comment "matches an admission-id pattern" when the `hadm_id`-form regex or
the hospital-admission-id-form regex matches its text, and its capture is
that of the matching form (`hadm_id` form preferred when both match). -/
def admissionPatternCapture (comment : String) : Option String :=
  match searchHadm comment with
  | some d => some d
  | none => searchHosp comment

/-- The value C3 claims is extracted: the capture of whichever comment
matched an admission-id pattern last in comment order. -/
def claimedHadmId (comments : List String) : String :=
  (comments.filterMap admissionPatternCapture).getLastD ""


/-! ## Data model: header objects and output rows -/

/-- The multi-segment record header object returned by `wfdb.rdheader`
for a record, restricted to the attributes the scripts read.  `none`
models an attribute that is absent or `None`. -/
structure RecordHeader where
  comments : Option (List String)
  base_datetime : Option Nat
  sig_len : Option Nat
  fs : Option ℚ
  seg_name : Option (List String)
  seg_len : Option (List Nat)
deriving DecidableEq

/-- The header object returned by `wfdb.rdheader` for a single segment,
restricted to the attributes the scripts read. -/
structure SegHeader where
  sig_len : Option Nat
  fs : Option ℚ
  n_sig : Nat
  sig_name : List String
  units : Option (List String)
  adc_gain : Option (List ℚ)
  baseline : Option (List Int)
  adc_res : Option (List Nat)
  has_file_name : Bool
deriving DecidableEq

/-- One row of `waveform_records.csv` (after the header row).  `Option`
fields are written as an empty CSV field when `none`. -/
structure RecordRow where
  record_id : String
  subject_id : Nat
  hadm_id : String
  start_datetime : String
  end_datetime : String
  record_duration_sec : Option Nat
  file_path : String
  header_file : String
  base_counter_freq : Option ℚ
  num_segments : Nat
deriving DecidableEq

/-- One row of `waveform_segments.csv`. -/
structure SegmentRow where
  record_id : String
  segment_name : String
  segment_num : Nat
  segment_start_time : String
  segment_duration_sec : Option ℚ
  segment_header_file : String
  segment_data_file : String
  sampling_frequency : Option ℚ
  num_signals : Nat
deriving DecidableEq

/-- One row of `waveform_signals.csv`. -/
structure SignalRow where
  record_id : String
  segment_num : Nat
  signal_name : String
  signal_index : Nat
  signal_units : String
  signal_gain : Option ℚ
  signal_baseline : Option Int
  signal_adc_resolution : Option Nat
  signal_description : String
  signal_type : String
deriving DecidableEq

/-- One row of `waveform_numerics.csv`. -/
structure NumericsRow where
  record_id : String
  measurement_time : String
  counter_ticks : Int
  heart_rate : Option Int
  resp_rate : Option Int
  spo2 : Option Int
  nibp_systolic : Option Int
  nibp_diastolic : Option Int
  nibp_mean : Option Int
  abp_systolic : Option Int
  abp_diastolic : Option Int
  abp_mean : Option Int
  cvp : Option ℚ
  etco2 : Option ℚ
  temperature : Option ℚ
  measurement_name : String
  measurement_value : Option ℚ
  measurement_unit : String
deriving DecidableEq

/-! ## Identity resolver (extract_metadata.py lines 162-185,
update_records.py lines 99-123) -/

/-- One iteration of the comment loop: the accumulator holds the current
`hadm_id` string and the current `subject_id_from_header`.  Mirrors the
`if 'hadm_id' in ... elif 'hospital admission id' in ...` chain and the
separate `if 'subject_id' in ...` check of the source. -/
def scanStep (acc : String × Option Nat) (comment : String) : String × Option Nat :=
  let cl := strLower comment
  let hadm :=
    if strContains cl "hadm_id" then
      match searchHadm comment with
      | some d => d
      | none => acc.1
    else if strContains cl "hospital admission id" then
      match searchHosp comment with
      | some d => d
      | none => acc.1
    else acc.1
  let subj :=
    if strContains cl "subject_id" then
      match searchSubj comment with
      | some d => some (natOfDigits d)
      | none => acc.2
    else acc.2
  (hadm, subj)

/-- The whole comment loop: starts from `hadm_id = ''`,
`subject_id_from_header = None`. -/
def scanComments (comments : List String) : String × Option Nat :=
  comments.foldl scanStep ("", none)

/-- The `hadm_id` value the script extracts from the header comments. -/
def extractHadmId (comments : List String) : String :=
  (scanComments comments).1

/-- `if subject_id_from_header: subject_id = subject_id_from_header`:
the header value overrides the path-derived id only when it is truthy,
i.e. present and nonzero. -/
def resolveSubjectId (comments : List String) (pathSubjectId : Nat) : Nat :=
  match (scanComments comments).2 with
  | some v => if v ≠ 0 then v else pathSubjectId
  | none => pathSubjectId

/-! ## Record-level timing (extract_metadata.py lines 188-209) -/

/-- `record.base_datetime` formatted, or `''` when absent (the
`isinstance(start_datetime, datetime)` reformatting step). -/
def fmtOptDT : Option Nat → String
  | some t => fmtDT t
  | none => ""

/-- End-datetime calculation: `if start_datetime and duration_sec and
base_freq:` — all three truthy (present, and nonzero for the numbers) —
then `start + timedelta(seconds=duration_sec / base_freq)` formatted,
with any arithmetic failure caught and yielding `''`. -/
def endDatetimeOf : Option Nat → Option Nat → Option ℚ → String
  | some b, some d, some f =>
    if d ≠ 0 ∧ f ≠ 0 then
      match addSeconds b ((d : ℚ) / f) with
      | some t => fmtDT t
      | none => ""
    else ""
  | _, _, _ => ""

/-- The `waveform_records.csv` row built for one record whose header was
read successfully (extract_metadata.py lines 162-209). -/
def buildRecordRow (record_path record_name : String) (pathSubjectId : Nat)
    (record : RecordHeader) : RecordRow :=
  let comments := record.comments.getD []
  { record_id := record_name
    subject_id := resolveSubjectId comments pathSubjectId
    hadm_id := extractHadmId comments
    start_datetime := fmtOptDT record.base_datetime
    end_datetime := endDatetimeOf record.base_datetime record.sig_len record.fs
    record_duration_sec := record.sig_len
    file_path := record_path
    header_file := record_name ++ ".hea"
    base_counter_freq := record.fs
    num_segments := (record.seg_name.getD []).length }

/-! ## Environment: what the filesystem and the wfdb library return -/

/-- Contents of one `<record_name>n.csv.gz` numerics file as parsed by
`pd.read_csv`: a column-name list and rows of optionally-missing (NaN)
values, positionally aligned with the columns. -/
structure NumericsTable where
  cols : List String
  rows : List (List (Option ℚ))

/-- The ambient environment of one extraction run: what `wfdb.rdheader`
returns for a record path (`none` = the read raises), what it returns for
a segment name inside a record directory (`none` = the read raises), and
the parsed numerics table for a record path (`none` = no readable
numerics file). -/
structure Env where
  recHeader : String → Option RecordHeader
  segHeader : String → String → Option SegHeader
  numerics : String → Option NumericsTable

/-! ## Segment processing (extract_metadata.py lines 212-261) -/

/-- Negation of the skip condition
`seg_name == '~' or '_layout' in seg_name or seg_name.endswith('_0000')`. -/
def passesSegFilter (seg_name : String) : Bool :=
  !(seg_name == "~" || strContains seg_name "_layout" || strEndsWith seg_name "_0000")

/-- Segment start time (lines 222-233): requires the record's formatted
base datetime to be truthy, `fs` present and positive, `seg_num > 0` and
`seg_len` present; then base + (sum of the lengths of all segments
strictly before `seg_num`) / fs, with overflow caught as `''`.  For
`seg_num = 0` (or any missing precondition) the field stays `''`. -/
def segStartTime (record : RecordHeader) (seg_num : Nat) : String :=
  match record.base_datetime, record.fs with
  | some b, some f =>
    if 0 < f then
      if 0 < seg_num then
        match record.seg_len with
        | some segLen =>
          (match addSeconds b ((((segLen.take seg_num).sum : ℕ) : ℚ) / f) with
           | some t => fmtDT t
           | none => "")
        | none => ""
      else ""
    else ""
  | _, _ => ""

/-- Segment duration (lines 235-237): `sig_len / fs` when both are truthy
and `fs > 0`, else the empty field. -/
def segDuration (seg_header : SegHeader) : Option ℚ :=
  match seg_header.sig_len, seg_header.fs with
  | some n, some f => if n ≠ 0 ∧ f ≠ 0 ∧ 0 < f then some ((n : ℚ) / f) else none
  | _, _ => none

/-- The signal loop (lines 246-257) over `range(seg_header.n_sig)`.  An
out-of-range access into one of the parallel attribute lists raises
`IndexError`, which the per-segment `except` catches: the loop stops and
the rows already written stay (matched by stopping the recursion).  An
attribute that is absent altogether yields `''` instead. -/
def sigRowsLoop (record_name : String) (seg_num : Nat) (seg_header : SegHeader) :
    List Nat → List SignalRow
  | [] => []
  | i :: rest =>
    match seg_header.sig_name[i]? with
    | none => []
    | some nm =>
      let u : Option String :=
        match seg_header.units with | some l => l[i]? | none => some ""
      let g : Option (Option ℚ) :=
        match seg_header.adc_gain with | some l => (l[i]?).map some | none => some none
      let bl : Option (Option Int) :=
        match seg_header.baseline with | some l => (l[i]?).map some | none => some none
      let r : Option (Option Nat) :=
        match seg_header.adc_res with | some l => (l[i]?).map some | none => some none
      match u, g, bl, r with
      | some u, some g, some bl, some r =>
        { record_id := record_name, segment_num := seg_num, signal_name := nm,
          signal_index := i, signal_units := u, signal_gain := g, signal_baseline := bl,
          signal_adc_resolution := r, signal_description := "",
          signal_type := categorize_signal_type nm }
          :: sigRowsLoop record_name seg_num seg_header rest
      | _, _, _, _ => []

/-- Processing of one non-skipped segment (lines 218-257): read the
segment header (a failed read skips the segment), emit its segment row,
then its signal rows. -/
def processSegment (env : Env) (record_path record_name : String) (record : RecordHeader)
    (seg_num : Nat) (seg_name : String) : List SegmentRow × List SignalRow :=
  match env.segHeader record_path seg_name with
  | none => ([], [])
  | some seg_header =>
    let row : SegmentRow :=
      { record_id := record_name, segment_name := seg_name, segment_num := seg_num,
        segment_start_time := segStartTime record seg_num,
        segment_duration_sec := segDuration seg_header,
        segment_header_file := seg_name ++ ".hea",
        segment_data_file := if seg_header.has_file_name then seg_name ++ ".dat" else "",
        sampling_frequency := seg_header.fs, num_signals := seg_header.n_sig }
    ([row], sigRowsLoop record_name seg_num seg_header (List.range seg_header.n_sig))

/-- `for seg_num, seg_name in enumerate(record.seg_name)` with the skip
filter (lines 213-216); `seg_num` counts every position of the original
list, including skipped ones. -/
def segmentsLoop (env : Env) (record_path record_name : String) (record : RecordHeader) :
    Nat → List String → List SegmentRow × List SignalRow
  | _, [] => ([], [])
  | seg_num, seg_name :: rest =>
    let cur := if passesSegFilter seg_name
      then processSegment env record_path record_name record seg_num seg_name
      else ([], [])
    let next := segmentsLoop env record_path record_name record (seg_num + 1) rest
    (cur.1 ++ next.1, cur.2 ++ next.2)

/-! ## Concrete test fixtures -/

/-- A segment header with no optional attributes and no signals. -/
def shEmpty : SegHeader :=
  { sig_len := none, fs := none, n_sig := 0, sig_name := [], units := none,
    adc_gain := none, baseline := none, adc_res := none, has_file_name := false }

/-- Environment whose segment headers all read as `shEmpty` and with no
records or numerics. -/
def envSeg : Env :=
  { recHeader := fun _ => none, segHeader := fun _ _ => some shEmpty,
    numerics := fun _ => none }

/-- Record header for the C2 counterexample: base timestamp present,
positive frequency, one segment. -/
def hdrC2 : RecordHeader :=
  { comments := none, base_datetime := some (secondsOfDate 2023 1 1 0 0 0),
    sig_len := some 30, fs := some 1, seg_name := some ["segA"], seg_len := some [10] }

/-- Record header for the C2 witness: two segments of 10 and 20 samples
at 1 Hz. -/
def hdrC2w : RecordHeader :=
  { comments := none, base_datetime := some (secondsOfDate 2023 1 1 0 0 0),
    sig_len := some 30, fs := some 1, seg_name := some ["segA", "segB"],
    seg_len := some [10, 20] }

/-- Record header for the C7 example (no timing attributes, four
segments). -/
def hdrC7 : RecordHeader :=
  { comments := none, base_datetime := none, sig_len := none, fs := none,
    seg_name := some ["~", "seg1", "rec_0000", "seg2"], seg_len := none }

/-- The segment row the C7 example emits for `seg1`. -/
def rowC7 : SegmentRow :=
  { record_id := "rB", segment_name := "seg1", segment_num := 1,
    segment_start_time := "", segment_duration_sec := none,
    segment_header_file := "seg1.hea", segment_data_file := "",
    sampling_frequency := none, num_signals := 0 }

/-! ## Numerics processing (extract_metadata.py lines 263-338) -/

/-- The per-row output slots, all initialised to the empty field
(lines 284-289). -/
structure NumSlots where
  heart_rate : Option Int := none
  resp_rate : Option Int := none
  spo2 : Option Int := none
  nibp_systolic : Option Int := none
  nibp_diastolic : Option Int := none
  nibp_mean : Option Int := none
  abp_systolic : Option Int := none
  abp_diastolic : Option Int := none
  abp_mean : Option Int := none
  cvp : Option ℚ := none
  etco2 : Option ℚ := none
  temperature : Option ℚ := none
  measurement_name : String := ""
  measurement_value : Option ℚ := none
deriving DecidableEq

/-- Classification of one non-missing column value (lines 297-329): the
`elif` chain on case-insensitive substrings of the column name, first
match winning; an unmatched column lands in the generic slot only while
`meas_name` is still empty. -/
def classifyStep (acc : NumSlots) (col : String) (value : ℚ) : NumSlots :=
  let col_lower := strLower col
  if strContains col_lower "spo2" || strContains col_lower "sp02" then
    { acc with spo2 := some (pyTrunc value) }
  else if strContains col_lower "hr" && strContains col_lower "heart" then
    { acc with heart_rate := some (pyTrunc value) }
  else if strContains col_lower "rr" && strContains col_lower "resp" then
    { acc with resp_rate := some (pyTrunc value) }
  else if strContains col_lower "nibp" then
    if strContains col_lower "sys" then { acc with nibp_systolic := some (pyTrunc value) }
    else if strContains col_lower "dias" then { acc with nibp_diastolic := some (pyTrunc value) }
    else if strContains col_lower "mean" then { acc with nibp_mean := some (pyTrunc value) }
    else acc
  else if strContains col_lower "abp" then
    if strContains col_lower "sys" then { acc with abp_systolic := some (pyTrunc value) }
    else if strContains col_lower "dias" then { acc with abp_diastolic := some (pyTrunc value) }
    else if strContains col_lower "mean" then { acc with abp_mean := some (pyTrunc value) }
    else acc
  else if strContains col_lower "cvp" then { acc with cvp := some value }
  else if strContains col_lower "etco2" then { acc with etco2 := some value }
  else if strContains col_lower "temp" then { acc with temperature := some value }
  else if acc.measurement_name == "" then
    { acc with measurement_name := col, measurement_value := some value }
  else acc

/-- One column paired with its value: skip it when the value is missing
(`pd.isna`, line 294), otherwise classify it. -/
def valueStep (acc : NumSlots) (p : String × Option ℚ) : NumSlots :=
  match p.2 with
  | none => acc
  | some v => classifyStep acc p.1 v

/-- The column loop over one row (lines 292-329): columns after the time
column paired with their values. -/
def classifyRow (pairs : List (String × Option ℚ)) : NumSlots :=
  pairs.foldl valueStep {}

/-- The guard-level disjunction of the rules of `classifyStep`: does the
column name match any classification rule (whether or not the rule's
inner sys/dias/mean sub-test then stores a value)? -/
def matchesAnyRule (col : String) : Bool :=
  let cl := strLower col
  strContains cl "spo2" || strContains cl "sp02" ||
  (strContains cl "hr" && strContains cl "heart") ||
  (strContains cl "rr" && strContains cl "resp") ||
  strContains cl "nibp" || strContains cl "abp" ||
  strContains cl "cvp" || strContains cl "etco2" || strContains cl "temp"

/-- Does this column, with this (possibly missing) value, fall through
every classification rule? -/
def unmatchedSel (p : String × Option ℚ) : Option (String × ℚ) :=
  match p.2 with
  | some v => if matchesAnyRule p.1 then none else some (p.1, v)
  | none => none

/-- The first column of a row (in column order) that has a non-missing
value and matches no rule, with its value. -/
def firstUnmatched (pairs : List (String × Option ℚ)) : Option (String × ℚ) :=
  pairs.findSome? unmatchedSel

/-- `measurement_time` of a numerics row (lines 274-282). -/
def measurementTime (record : RecordHeader) (ticks : Int) : String :=
  match record.base_datetime, record.fs with
  | some b, some f =>
    if 0 < f then
      match addSeconds b ((ticks : ℚ) / f) with
      | some t => fmtDT t
      | none => ""
    else ""
  | _, _ => ""

/-- Assembling the written numerics row (lines 331-335). -/
def mkNumericsRow (record_name mtime : String) (ticks : Int) (s : NumSlots) : NumericsRow :=
  { record_id := record_name, measurement_time := mtime, counter_ticks := ticks,
    heart_rate := s.heart_rate, resp_rate := s.resp_rate, spo2 := s.spo2,
    nibp_systolic := s.nibp_systolic, nibp_diastolic := s.nibp_diastolic,
    nibp_mean := s.nibp_mean, abp_systolic := s.abp_systolic,
    abp_diastolic := s.abp_diastolic, abp_mean := s.abp_mean,
    cvp := s.cvp, etco2 := s.etco2, temperature := s.temperature,
    measurement_name := s.measurement_name, measurement_value := s.measurement_value,
    measurement_unit := "" }

/-- The `df.iterrows()` loop (lines 271-335).  A row whose time cell is
missing makes `int(row[time_col])` raise, aborting the numerics `try`
while keeping the rows already written. -/
def numericsRowsLoop (record_name : String) (record : RecordHeader) (restCols : List String) :
    List (List (Option ℚ)) → List NumericsRow
  | [] => []
  | r :: rs =>
    match r.head? with
    | some (some tq) =>
      let ticks := pyTrunc tq
      mkNumericsRow record_name (measurementTime record ticks) ticks
          (classifyRow (restCols.zip (r.drop 1)))
        :: numericsRowsLoop record_name record restCols rs
    | _ => []

/-- Numerics rows of one record's table (`time_col = df.columns[0]`,
line 269; an empty column list raises, caught with zero rows). -/
def numericsRowsOf (record_name : String) (record : RecordHeader) (tbl : NumericsTable) :
    List NumericsRow :=
  match tbl.cols with
  | [] => []
  | _ :: restCols => numericsRowsLoop record_name record restCols tbl.rows

/-! ## The record loop of `extract_metadata` (lines 154-342) -/

/-- Everything one record contributes to the four output tables.  A
failed header read (`wfdb.rdheader` raises) contributes nothing. -/
def processRecord (env : Env) (skip_numerics : Bool) (rec : String × String × Nat) :
    List RecordRow × List SegmentRow × List SignalRow × List NumericsRow :=
  match env.recHeader rec.1 with
  | none => ([], [], [], [])
  | some record =>
    let rrow := buildRecordRow rec.1 rec.2.1 rec.2.2 record
    let segs := match record.seg_name with
      | some names => segmentsLoop env rec.1 rec.2.1 record 0 names
      | none => ([], [])
    let nums := if skip_numerics then []
      else match env.numerics rec.1 with
        | some tbl => numericsRowsOf rec.2.1 record tbl
        | none => []
    ([rrow], segs.1, segs.2, nums)

/-- The four CSV files (after their header rows). -/
structure Outputs where
  records : List RecordRow
  segments : List SegmentRow
  signals : List SignalRow
  numerics : List NumericsRow
deriving DecidableEq

/-- `extract_metadata`: the sequential record loop, appending each
record's rows to the four open CSV writers. -/
def extract_metadata (env : Env) (records : List (String × String × Nat))
    (skip_numerics : Bool) : Outputs :=
  { records := records.flatMap fun r => (processRecord env skip_numerics r).1
    segments := records.flatMap fun r => (processRecord env skip_numerics r).2.1
    signals := records.flatMap fun r => (processRecord env skip_numerics r).2.2.1
    numerics := records.flatMap fun r => (processRecord env skip_numerics r).2.2.2 }

/-! ## The records-only updater (update_records.py), embedded from its own
source (lines 77-153).  The record-row logic is textually repeated in that
script, so the embedding repeats it as well. -/

namespace UpdateRecords

/-- One iteration of the comment loop (update_records.py lines 104-119). -/
def scanStep (acc : String × Option Nat) (comment : String) : String × Option Nat :=
  let cl := strLower comment
  let hadm :=
    if strContains cl "hadm_id" then
      match searchHadm comment with
      | some d => d
      | none => acc.1
    else if strContains cl "hospital admission id" then
      match searchHosp comment with
      | some d => d
      | none => acc.1
    else acc.1
  let subj :=
    if strContains cl "subject_id" then
      match searchSubj comment with
      | some d => some (natOfDigits d)
      | none => acc.2
    else acc.2
  (hadm, subj)

/-- The whole comment loop (update_records.py lines 100-119). -/
def scanComments (comments : List String) : String × Option Nat :=
  comments.foldl scanStep ("", none)

/-- `if subject_id_from_header:` (update_records.py lines 122-123). -/
def resolveSubjectId (comments : List String) (pathSubjectId : Nat) : Nat :=
  match (scanComments comments).2 with
  | some v => if v ≠ 0 then v else pathSubjectId
  | none => pathSubjectId

/-- End-datetime calculation (update_records.py lines 132-138). -/
def endDatetimeOf : Option Nat → Option Nat → Option ℚ → String
  | some b, some d, some f =>
    if d ≠ 0 ∧ f ≠ 0 then
      match addSeconds b ((d : ℚ) / f) with
      | some t => fmtDT t
      | none => ""
    else ""
  | _, _, _ => ""

/-- The row written by update_records.py (lines 99-147). -/
def buildRecordRow (record_path record_name : String) (pathSubjectId : Nat)
    (record : RecordHeader) : RecordRow :=
  let comments := record.comments.getD []
  { record_id := record_name
    subject_id := resolveSubjectId comments pathSubjectId
    hadm_id := (scanComments comments).1
    start_datetime := fmtOptDT record.base_datetime
    end_datetime := endDatetimeOf record.base_datetime record.sig_len record.fs
    record_duration_sec := record.sig_len
    file_path := record_path
    header_file := record_name ++ ".hea"
    base_counter_freq := record.fs
    num_segments := (record.seg_name.getD []).length }

/-- `extract_records_metadata` (update_records.py lines 77-153): one row
per record whose header reads successfully, in scan order. -/
def extract_records_metadata (env : Env) (records : List (String × String × Nat)) :
    List RecordRow :=
  records.flatMap fun rec =>
    match env.recHeader rec.1 with
    | none => []
    | some record => [buildRecordRow rec.1 rec.2.1 rec.2.2 record]

end UpdateRecords

/-! ## Corpus scanner (`find_all_records`, extract_metadata.py lines
53-82; update_records.py has a byte-identical copy) -/

/-- Stable insertion of `x` into a sorted list. -/
def insertSorted {α : Type} (le : α → α → Bool) (x : α) : List α → List α
  | [] => [x]
  | y :: ys => if le x y then x :: y :: ys else y :: insertSorted le x ys

/-- Stable ascending sort (models Python's stable `sorted`). -/
def sortByLe {α : Type} (le : α → α → Bool) : List α → List α
  | [] => []
  | x :: xs => insertSorted le x (sortByLe le xs)

/-- Lexicographic comparison of character lists by code point. -/
def listCharLe : List Char → List Char → Bool
  | [], _ => true
  | _ :: _, [] => false
  | x :: xs, y :: ys =>
    if x.toNat < y.toNat then true
    else if y.toNat < x.toNat then false
    else listCharLe xs ys

/-- `sorted()` comparison of directory entries: lexicographic on name
code points (Python string comparison). -/
def strLe (a b : String) : Bool := listCharLe a.toList b.toList

/-- A record-level directory entry: its name, whether it is a directory,
and the plain files directly inside it. -/
structure RecEntry where
  name : String
  isDir : Bool
  files : List String
deriving DecidableEq

/-- A subject-level entry. -/
structure SubjEntry where
  name : String
  isDir : Bool
  children : List RecEntry
deriving DecidableEq

/-- A group-level entry. -/
structure GroupEntry where
  name : String
  isDir : Bool
  children : List SubjEntry
deriving DecidableEq

/-- The data-directory tree, to the three-level depth the scanner visits. -/
structure FsTree where
  entries : List GroupEntry
deriving DecidableEq

/-- The inner loop over `sorted(patient_dir.iterdir())` (lines 70-79).
`int(subject_id)` runs only when a conforming record directory is found;
a non-numeric subject name then raises `ValueError` (modelled as
`Except.error`), which nothing in the script catches. -/
def scanRecordDirs (gname sname sid : String) :
    List RecEntry → Except String (List (String × String × Nat))
  | [] => .ok []
  | r :: rest =>
    if r.isDir && r.files.contains (r.name ++ ".hea") then
      match pyNatParse sid with
      | some n =>
        match scanRecordDirs gname sname sid rest with
        | .ok tl => .ok ((gname ++ "/" ++ sname ++ "/" ++ r.name, r.name, n) :: tl)
        | .error e => .error e
      | none => .error ("invalid literal for int() with base 10: " ++ sid)
    else scanRecordDirs gname sname sid rest

/-- The loop over `sorted(p_dir.glob('p*'))` (lines 64-79): filter the
`p` prefix, sort, skip non-directories. -/
def scanSubjectDirs (gname : String) :
    List SubjEntry → Except String (List (String × String × Nat))
  | [] => .ok []
  | s :: rest =>
    match (if s.isDir then
        scanRecordDirs gname s.name (s.name.drop 1)
          (sortByLe (fun a b => strLe a.name b.name) s.children)
      else .ok []) with
    | .error e => .error e
    | .ok l1 =>
      match scanSubjectDirs gname rest with
      | .error e => .error e
      | .ok l2 => .ok (l1 ++ l2)

/-- The loop over `sorted(data_path.glob('p*'))` (lines 60-79). -/
def scanGroupDirs : List GroupEntry → Except String (List (String × String × Nat))
  | [] => .ok []
  | g :: rest =>
    match (if g.isDir then
        scanSubjectDirs g.name
          (sortByLe (fun a b => strLe a.name b.name)
            (g.children.filter (fun s => strStartsWith s.name "p")))
      else .ok []) with
    | .error e => .error e
    | .ok l1 =>
      match scanGroupDirs rest with
      | .error e => .error e
      | .ok l2 => .ok (l1 ++ l2)

/-- `find_all_records` (lines 53-82) on an existing data directory. -/
def find_all_records (t : FsTree) : Except String (List (String × String × Nat)) :=
  scanGroupDirs
    (sortByLe (fun a b => strLe a.name b.name)
      (t.entries.filter (fun g => strStartsWith g.name "p")))

/-- The `main` precondition (extract_metadata.py lines 363-366): a missing
data directory is reported before any scanning begins. -/
def find_all_records_from_root : Option FsTree → Except String (List (String × String × Nat))
  | none => .error "Data directory not found"
  | some t => find_all_records t

/-- C4 counterexample tree: group `p100` holds a conforming subject
`p123` (record `r2`) and a subject directory `pabc` whose name after the
`p` prefix is not numeric but which contains a conforming record `r1`. -/
def treeC4 : FsTree :=
  { entries := [
      { name := "p100", isDir := true, children := [
          { name := "pabc", isDir := true,
            children := [{ name := "r1", isDir := true, files := ["r1.hea"] }] },
          { name := "p123", isDir := true,
            children := [{ name := "r2", isDir := true, files := ["r2.hea"] }] }] }] }

/-- The same tree with the non-numeric subject directory removed. -/
def treeC4good : FsTree :=
  { entries := [
      { name := "p100", isDir := true, children := [
          { name := "p123", isDir := true,
            children := [{ name := "r2", isDir := true, files := ["r2.hea"] }] }] }] }

/-- The conforming record directory of the C4 witness tree. -/
def recC4w : RecEntry := { name := "r", isDir := true, files := ["r.hea"] }

/-- The conforming subject directory of the C4 witness tree: it also
holds a record directory without a self-named header. -/
def subjC4w : SubjEntry :=
  { name := "p12", isDir := true, children := [
      { name := "nohea", isDir := true, files := ["other.hea"] }, recC4w] }

/-- The conforming group directory of the C4 witness tree: it also holds
a subject directory that fails the `p` naming pattern. -/
def grpC4w : GroupEntry :=
  { name := "p1", isDir := true, children := [
      { name := "notp", isDir := true,
        children := [{ name := "rY", isDir := true, files := ["rY.hea"] }] },
      subjC4w] }

/-- C4 witness tree: one conforming record plus assorted directories that
fail the naming pattern (a non-`p` group, a non-`p` subject, a
non-directory entry, a record directory without a self-named header). -/
def treeC4w : FsTree :=
  { entries := [
      { name := "waves.txt", isDir := false, children := [] },
      { name := "q999", isDir := true, children := [
          { name := "p7", isDir := true,
            children := [{ name := "rX", isDir := true, files := ["rX.hea"] }] }] },
      grpC4w] }

/-- A record header with every optional attribute absent. -/
def hdrPlain : RecordHeader :=
  { comments := none, base_datetime := none, sig_len := none, fs := none,
    seg_name := none, seg_len := none }

/-- Environment for the C9 witness: the header of `p1/p10/bad` raises,
the header of `p1/p11/good` reads fine. -/
def envC9 : Env :=
  { recHeader := fun p => if p = "p1/p11/good" then some hdrPlain else none,
    segHeader := fun _ _ => none, numerics := fun _ => none }

/-! ## Basic lemmas about the string utilities -/

theorem listHasSub_iff (pat l : List Char) : listHasSub pat l = true ↔ pat <:+: l := by
  induction l with
  | nil =>
    constructor
    · intro h
      simp only [listHasSub, List.isEmpty_iff] at h
      simp [h]
    · intro h
      simp [listHasSub, List.isEmpty_iff, List.eq_nil_of_infix_nil h]
  | cons c rest ih =>
    simp [listHasSub, List.infix_cons_iff, List.isPrefixOf_iff_prefix, ih]

theorem strContains_iff (hay pat : String) :
    strContains hay pat = true ↔ pat.toList <:+: hay.toList := by
  simp [strContains, listHasSub_iff]

/-- The `'PLETH'` and `'RESP'` branches of `categorize_signal_type` are
unreachable: any label containing `PLETH` or `RESP` also contains `P`,
which is in the `pressure_types` substring list checked first, so the
function can never return `"Plethysmogram"` or `"Respiration"`. -/
theorem categorize_signal_type_dead_branches (s : String) :
    categorize_signal_type s ≠ "Plethysmogram" ∧ categorize_signal_type s ≠ "Respiration" := by
  simp only [categorize_signal_type]
  split_ifs with h1 h2 h3 h4 h5 <;> try simp_all
  · -- Plethysmogram branch: label contains "PLETH", hence contains "P",
    -- contradicting the failure of the Pressure check.
    rw [strContains_iff] at h3
    have hp : strContains (strUpper s) "P" = true := by
      rw [strContains_iff]
      exact List.IsInfix.trans (by decide) h3
    simp [hp] at h2
  · -- Respiration branch: label contains "RESP", hence contains "P".
    rw [strContains_iff] at h4
    have hp : strContains (strUpper s) "P" = true := by
      rw [strContains_iff]
      exact List.IsInfix.trans (by decide) h4
    simp [hp] at h2

/-- C1: The spec claims the classifier maps `"II"` to ECG, `"ABP"` to
Pressure, `"PLETH"` to Plethysmogram, `"RESP"` to Respiration, `"CO2"` to
Capnography and `"XYZ"` to Other.  Evaluating the code: `"PLETH"` and
`"RESP"` both yield `"Pressure"`, because the Pressure substring list
contains `"P"` and the Pressure rule is checked before the `PLETH`/`RESP`
rules (the Plethysmogram and Respiration branches are dead code, see
`categorize_signal_type_dead_branches`).  The other four labels behave as
claimed. -/
theorem C1_signal_classifier_eval :
    categorize_signal_type "II" = "ECG" ∧
    categorize_signal_type "ABP" = "Pressure" ∧
    categorize_signal_type "PLETH" = "Pressure" ∧
    categorize_signal_type "RESP" = "Pressure" ∧
    categorize_signal_type "CO2" = "Capnography" ∧
    categorize_signal_type "XYZ" = "Other" := by
  decide

theorem scanStep_fst (acc : String × Option Nat) (c : String) :
    (scanStep acc c).1 = (codeHadmMatch c).getD acc.1 := by
  simp only [scanStep, codeHadmMatch]
  split_ifs <;> cases h : searchHadm c <;> cases h' : searchHosp c <;> simp [h, h']

theorem scanStep_snd (acc : String × Option Nat) (c : String) :
    (scanStep acc c).2 = ((codeSubjMatch c).map some).getD acc.2 := by
  simp only [scanStep, codeSubjMatch]
  split_ifs <;> cases h : searchSubj c <;> simp [h]

theorem scanStep_eq (acc : String × Option Nat) (c : String) :
    scanStep acc c = ((codeHadmMatch c).getD acc.1, ((codeSubjMatch c).map some).getD acc.2) :=
  Prod.ext (scanStep_fst acc c) (scanStep_snd acc c)

theorem scan_foldl_fst (l : List String) (a : String) (s : Option Nat) :
    (l.foldl scanStep (a, s)).1 = (l.filterMap codeHadmMatch).getLastD a := by
  induction l generalizing a s with
  | nil => rfl
  | cons c l ih =>
    rw [List.foldl_cons, scanStep_eq, ih, List.filterMap_cons]
    cases h : codeHadmMatch c with
    | none => rfl
    | some d => rw [List.getLastD_cons]; exact rfl

theorem scan_foldl_snd (l : List String) (a : String) (s : Option Nat) :
    (l.foldl scanStep (a, s)).2 = ((l.filterMap codeSubjMatch).map some).getLastD s := by
  induction l generalizing a s with
  | nil => rfl
  | cons c l ih =>
    rw [List.foldl_cons, scanStep_eq, ih, List.filterMap_cons]
    cases h : codeSubjMatch c with
    | none => rfl
    | some d => rw [List.map_cons, List.getLastD_cons]; exact rfl

theorem mapSome_getLastD {α : Type} (l : List α) (s : Option α) :
    (l.map some).getLastD s = match l.getLast? with | some v => some v | none => s := by
  rw [List.getLastD_eq_getLast?, List.getLast?_map]
  cases l.getLast? <;> simp

/-! ## C3: hadm_id overwrite-on-later-match -/

/-- C3 counterexample: in
`["hadm_id 111", "hadm_identifier hospital admission id: 222"]` the second
comment matches the hospital-admission-id pattern (capture `222`) and is
the last comment to match an admission-id pattern, so the claim says the
extracted hadm_id is `222`; the code extracts `111`, because the second
comment contains the substring `hadm_id` (inside `hadm_identifier`), which
routes it to the `hadm_id`-pattern branch only — the failing `hadm_id`
regex leaves the earlier value in place and the `elif` never tries the
hospital pattern. -/
theorem C3_hadm_counterexample :
    extractHadmId ["hadm_id 111", "hadm_identifier hospital admission id: 222"] = "111" ∧
    admissionPatternCapture "hadm_identifier hospital admission id: 222" = some "222" ∧
    claimedHadmId ["hadm_id 111", "hadm_identifier hospital admission id: 222"] = "222" := by
  decide

/-- C3 (amended): the extracted hadm_id is decided by overwrite-on-later-
match over the *code's* per-comment attempts: a comment containing
`hadm_id` attempts only the `hadm_id` pattern, a comment not containing
`hadm_id` but containing `hospital admission id` attempts only the
hospital pattern, and the last successful attempt in comment order wins
(regardless of which of the two forms it used); the result is the
`hadm_id` field of the emitted record row. -/
theorem C3_hadm_last_match_wins (comments : List String) :
    extractHadmId comments = (comments.filterMap codeHadmMatch).getLastD "" ∧
    ∀ rp rn pid h, (buildRecordRow rp rn pid h).hadm_id = extractHadmId (h.comments.getD []) :=
  ⟨scan_foldl_fst comments "" none, fun _ _ _ _ => rfl⟩

/-! ## C5: subject_id override -/

/-- C5 counterexample: a header whose only comment is `subject_id 0`
matches the `subject_id\s+(\d+)` pattern with capture `0`, so the claim
says the emitted subject id is `0`; the code emits the path-derived id
`42`, because `if subject_id_from_header:` is false for the integer 0. -/
theorem C5_subject_counterexample :
    (buildRecordRow "p4/p42/rec1" "rec1" 42
      { comments := some ["subject_id 0"], base_datetime := none, sig_len := none,
        fs := none, seg_name := none, seg_len := none }).subject_id = 42 ∧
    searchSubj "subject_id 0" = some "0" ∧ natOfDigits "0" = 0 := by
  decide

/-- C5 (amended): the captured integer of the last comment matching the
`subject_id` pattern overrides the path-derived subject id **unless that
captured integer is 0** (a falsy value in the `if subject_id_from_header:`
test), in which case — and when no comment matches — the path-derived id
is emitted. -/
theorem C5_subject_override (comments : List String) (pid : Nat) :
    resolveSubjectId comments pid =
      (match (comments.filterMap codeSubjMatch).getLast? with
       | some v => if v = 0 then pid else v
       | none => pid) ∧
    ∀ rp rn h, (buildRecordRow rp rn pid h).subject_id =
      resolveSubjectId (h.comments.getD []) pid := by
  constructor
  · unfold resolveSubjectId scanComments
    rw [scan_foldl_snd, mapSome_getLastD]
    cases (comments.filterMap codeSubjMatch).getLast? with
    | none => rfl
    | some v =>
      by_cases hv : v = 0 <;> simp [hv]
  · intro rp rn h
    rfl

/-! ## C6: record end_datetime -/

/-- C6 counterexample: all three inputs are present (`base timestamp
2023-01-01 00:00:00`, duration `0` samples, frequency `1 > 0`), so the
claim says `end_datetime = base + 0/1 s = "2023-01-01 00:00:00"`; the
code emits the empty field, because `if start_datetime and duration_sec
and base_freq:` is false for a zero duration. -/
theorem C6_end_counterexample :
    (buildRecordRow "p1/p10/r0" "r0" 10
      { comments := none, base_datetime := some (secondsOfDate 2023 1 1 0 0 0),
        sig_len := some 0, fs := some 1, seg_name := none, seg_len := none }).end_datetime = "" ∧
    fmtDT (secondsOfDate 2023 1 1 0 0 0) = "2023-01-01 00:00:00" := by
  decide

/-- C6 (amended): when base timestamp, sample duration and frequency are
all present, the duration is **nonzero**, and the frequency is positive,
the emitted end_datetime is base + duration/frequency seconds formatted
`YYYY-MM-DD HH:MM:SS` (empty if the datetime arithmetic overflows); when
any of the three is absent — or the duration is zero — the field is
empty.  The record row is built (emitted) in every one of these cases. -/
theorem C6_end_datetime (b d : Nat) (f : ℚ) (hd : d ≠ 0) (hf : 0 < f) :
    (endDatetimeOf (some b) (some d) (some f) =
      match addSeconds b ((d : ℚ) / f) with
      | some t => fmtDT t
      | none => "") ∧
    endDatetimeOf (some b) (some 0) (some f) = "" ∧
    (∀ x y, endDatetimeOf none x y = "") ∧
    (∀ y, endDatetimeOf (some b) none y = "") ∧
    endDatetimeOf (some b) (some d) none = "" ∧
    ∀ rp rn pid h, (buildRecordRow rp rn pid h).end_datetime =
      endDatetimeOf h.base_datetime h.sig_len h.fs := by
  refine ⟨?_, ?_, ?_, ?_, ?_, ?_⟩
  · simp only [endDatetimeOf]
    rw [if_pos ⟨hd, ne_of_gt hf⟩]
  · simp [endDatetimeOf]
  · intro x y; cases x <;> cases y <;> rfl
  · intro y; cases y <;> rfl
  · rfl
  · intro rp rn pid h; rfl

/-- `base + timedelta(seconds=n)` for a whole number of seconds that stays
in range: plain addition. -/
theorem addSeconds_natCast (b n : Nat) (h : b + n ≤ maxPySecond) :
    addSeconds b ((n : ℕ) : ℚ) = some (b + n) := by
  unfold addSeconds
  have hc : ((b : ℚ) + (n : ℚ)) = (((b + n : ℕ) : ℤ) : ℚ) := by push_cast; ring
  rw [hc, Int.floor_intCast]
  rw [if_pos ⟨Int.ofNat_nonneg _, by exact_mod_cast h⟩]
  simp
  omega

/-- Witness for C6 at the spec's own test point: base
`2023-01-01 00:00:00`, frequency 1, duration 3600 samples gives
`2023-01-01 01:00:00`. -/
theorem C6_end_datetime_witness :
    (3600 : Nat) ≠ 0 ∧ (0 : ℚ) < 1 ∧
    endDatetimeOf (some (secondsOfDate 2023 1 1 0 0 0)) (some 3600) (some 1) =
      "2023-01-01 01:00:00" := by
  refine ⟨by decide, by decide, ?_⟩
  rw [(C6_end_datetime (secondsOfDate 2023 1 1 0 0 0) 3600 1 (by decide) (by decide)).1]
  have h1 : ((3600 : ℕ) : ℚ) / 1 = ((3600 : ℕ) : ℚ) := by norm_num
  rw [h1, addSeconds_natCast _ _ (by decide)]
  decide

/-! ## C2 / C7: segment rows -/

theorem processSegment_fst_mem (env : Env) (rp rn : String) (record : RecordHeader)
    (sn : Nat) (s : String) (ρ : SegmentRow)
    (h : ρ ∈ (processSegment env rp rn record sn s).1) :
    ρ.segment_name = s ∧ ρ.segment_num = sn ∧ ρ.segment_start_time = segStartTime record sn := by
  unfold processSegment at h
  cases hh : env.segHeader rp s with
  | none => rw [hh] at h; simp at h
  | some sh =>
    rw [hh] at h
    simp only [List.mem_singleton] at h
    rw [h]
    exact ⟨rfl, rfl, rfl⟩

theorem segmentsLoop_fst_mem (env : Env) (rp rn : String) (record : RecordHeader)
    (names : List String) :
    ∀ (i : Nat) (ρ : SegmentRow), ρ ∈ (segmentsLoop env rp rn record i names).1 →
      passesSegFilter ρ.segment_name = true ∧ i ≤ ρ.segment_num ∧
        names[ρ.segment_num - i]? = some ρ.segment_name := by
  induction names with
  | nil => intro i ρ h; simp [segmentsLoop] at h
  | cons s rest ih =>
    intro i ρ h
    simp only [segmentsLoop] at h
    rw [List.mem_append] at h
    cases h with
    | inl hcur =>
      by_cases hfil : passesSegFilter s
      · rw [if_pos hfil] at hcur
        obtain ⟨hname, hnum, -⟩ := processSegment_fst_mem env rp rn record i s ρ hcur
        refine ⟨by rw [hname]; exact hfil, by omega, ?_⟩
        rw [hnum, hname]
        simp
      · rw [if_neg hfil] at hcur
        simp at hcur
    | inr hrest =>
      obtain ⟨hfil, hle, hget⟩ := ih (i + 1) ρ hrest
      refine ⟨hfil, by omega, ?_⟩
      have harith : ρ.segment_num - i = (ρ.segment_num - (i + 1)) + 1 := by omega
      rw [harith, List.getElem?_cons_succ]
      exact hget

/-- C2 counterexample: a record with base timestamp
`2023-01-01 00:00:00`, frequency `1 > 0` and segment list `["segA"]`
emits its segment at original index 0 with an **empty**
`segment_start_time`, not with the record base timestamp as the claim
requires: the code computes a start time only `if seg_num > 0`. -/
theorem C2_seg_start_counterexample :
    ((segmentsLoop envSeg "p1/p11/rA" "rA" hdrC2 0 ["segA"]).1.map
        (fun ρ => (ρ.segment_name, ρ.segment_num, ρ.segment_start_time))) =
      [("segA", 0, "")] ∧
    fmtDT (secondsOfDate 2023 1 1 0 0 0) = "2023-01-01 00:00:00" := by
  decide

/-- C2 (amended): for an emitted segment at original index `N > 0` of a
record with base timestamp present, positive frequency and `seg_len`
present, the emitted `segment_start_time` is the base timestamp plus
(sum of the sample lengths of all segments strictly before index `N`,
skipped ones included) / frequency seconds (empty on datetime overflow);
the segment at index 0 instead always gets an **empty**
`segment_start_time` (the code guards the computation with
`seg_num > 0`). -/
theorem C2_segment_start_time (record : RecordHeader) (b : Nat) (f : ℚ) (L : List Nat)
    (hb : record.base_datetime = some b) (hf : record.fs = some f) (hpos : 0 < f)
    (hL : record.seg_len = some L) :
    (∀ n, 0 < n → segStartTime record n =
      (match addSeconds b ((((L.take n).sum : ℕ) : ℚ) / f) with
       | some t => fmtDT t
       | none => "")) ∧
    segStartTime record 0 = "" ∧
    (∀ env rp rn sn s ρ, ρ ∈ (processSegment env rp rn record sn s).1 →
      ρ.segment_start_time = segStartTime record sn) := by
  refine ⟨?_, ?_, ?_⟩
  · intro n hn
    simp only [segStartTime, hb, hf, hL]
    rw [if_pos hpos, if_pos hn]
  · simp only [segStartTime, hb, hf]
    rw [if_pos hpos]
    simp
  · intro env rp rn sn s ρ h
    exact (processSegment_fst_mem env rp rn record sn s ρ h).2.2

/-- Witness for C2 at a concrete record: two segments of 10 and 20
samples at 1 Hz starting 2023-01-01 00:00:00; the segment at index 1
starts at 00:00:10 and the segment at index 0 gets the empty field. -/
theorem C2_segment_start_time_witness :
    (0 : ℚ) < 1 ∧ (0 : Nat) < 1 ∧
    segStartTime hdrC2w 1 = "2023-01-01 00:00:10" ∧ segStartTime hdrC2w 0 = "" := by
  have h := C2_segment_start_time hdrC2w (secondsOfDate 2023 1 1 0 0 0) 1 [10, 20]
    rfl rfl (by decide) rfl
  refine ⟨by decide, by decide, ?_, h.2.1⟩
  rw [h.1 1 (by decide)]
  have h0 : ([10, 20].take 1).sum = 10 := by decide
  rw [h0]
  have h1 : ((10 : ℕ) : ℚ) / 1 = ((10 : ℕ) : ℚ) := by norm_num
  rw [h1, addSeconds_natCast _ _ (by decide)]
  decide

/-- C7: segment rows are emitted only for names that are not `"~"`, do
not contain `"_layout"` and do not end with `"_0000"`, and every emitted
row's `segment_num` is the segment's 0-based position in the record's
original unfiltered segment list; for `["~", "seg1", "rec_0000", "seg2"]`
exactly `seg1` (segment_num 1) and `seg2` (segment_num 3) are emitted, in
original order. -/
theorem C7_segment_filter_and_numbering :
    (∀ env rp rn record names ρ,
      ρ ∈ (segmentsLoop env rp rn record 0 names).1 →
        (¬ρ.segment_name = "~" ∧ strContains ρ.segment_name "_layout" = false ∧
          strEndsWith ρ.segment_name "_0000" = false) ∧
        names[ρ.segment_num]? = some ρ.segment_name) ∧
    (segmentsLoop envSeg "p1/p11/rB" "rB" hdrC7 0 ["~", "seg1", "rec_0000", "seg2"]).1.map
        (fun ρ => (ρ.segment_name, ρ.segment_num)) = [("seg1", 1), ("seg2", 3)] := by
  constructor
  · intro env rp rn record names ρ h
    obtain ⟨hfil, -, hget⟩ := segmentsLoop_fst_mem env rp rn record names 0 ρ h
    simp only [passesSegFilter, Bool.not_eq_true', Bool.or_eq_false_iff, beq_eq_false_iff_ne,
      ne_eq] at hfil
    refine ⟨⟨hfil.1.1, hfil.1.2, hfil.2⟩, ?_⟩
    simpa using hget
  · decide

/-- Witness for C7: the emitted row for `seg1` is in the concrete
example's output and satisfies the filter and original-position
properties. -/
theorem C7_segment_filter_witness :
    rowC7 ∈ (segmentsLoop envSeg "p1/p11/rB" "rB" hdrC7 0 ["~", "seg1", "rec_0000", "seg2"]).1 ∧
    ((¬rowC7.segment_name = "~" ∧ strContains rowC7.segment_name "_layout" = false ∧
      strEndsWith rowC7.segment_name "_0000" = false) ∧
     ["~", "seg1", "rec_0000", "seg2"][rowC7.segment_num]? = some rowC7.segment_name) :=
  ⟨by decide,
   C7_segment_filter_and_numbering.1 envSeg "p1/p11/rB" "rB" hdrC7
     ["~", "seg1", "rec_0000", "seg2"] rowC7 (by decide)⟩

/-! ## C8: numerics column classification -/

set_option maxHeartbeats 2000000 in
theorem classifyStep_heart_rate (acc : NumSlots) (col : String) (v : ℚ)
    (h : ¬(strContains (strLower col) "hr" = true ∧ strContains (strLower col) "heart" = true)) :
    (classifyStep acc col v).heart_rate = acc.heart_rate := by
  simp only [classifyStep]
  split_ifs <;> first | rfl | simp_all [Bool.and_eq_true]

theorem classifyFold_heart_rate (pairs : List (String × Option ℚ)) :
    ∀ acc : NumSlots,
      (∀ p ∈ pairs, ¬(strContains (strLower p.1) "hr" = true ∧
        strContains (strLower p.1) "heart" = true)) →
      (pairs.foldl valueStep acc).heart_rate = acc.heart_rate := by
  induction pairs with
  | nil => intro acc _; rfl
  | cons p rest ih =>
    intro acc h
    rw [List.foldl_cons]
    have hrest := ih (valueStep acc p) (fun q hq => h q (List.mem_cons_of_mem p hq))
    rw [hrest]
    cases hp : p.2 with
    | none => simp [valueStep, hp]
    | some v =>
      simp only [valueStep, hp]
      exact classifyStep_heart_rate acc p.1 v (h p (List.mem_cons_self p rest))

set_option maxHeartbeats 2000000 in
theorem classifyStep_meas_of_matched (acc : NumSlots) (col : String) (v : ℚ)
    (h : matchesAnyRule col = true) :
    (classifyStep acc col v).measurement_name = acc.measurement_name ∧
    (classifyStep acc col v).measurement_value = acc.measurement_value := by
  simp only [classifyStep]
  split_ifs <;> first
    | exact ⟨rfl, rfl⟩
    | (exfalso
       simp only [matchesAnyRule, Bool.or_eq_true, Bool.and_eq_true] at h
       simp only [Bool.or_eq_true, Bool.and_eq_true] at *
       tauto)

set_option maxHeartbeats 2000000 in
theorem classifyStep_meas_of_unmatched (acc : NumSlots) (col : String) (v : ℚ)
    (hm : matchesAnyRule col = false) (hacc : acc.measurement_name = "") :
    (classifyStep acc col v).measurement_name = col ∧
    (classifyStep acc col v).measurement_value = some v := by
  simp only [matchesAnyRule, Bool.or_eq_false_iff, Bool.and_eq_false_iff] at hm
  simp only [classifyStep]
  split_ifs <;> first
    | exact ⟨rfl, rfl⟩
    | simp_all

set_option maxHeartbeats 2000000 in
theorem classifyStep_meas_keep (acc : NumSlots) (col : String) (v : ℚ)
    (hacc : acc.measurement_name ≠ "") :
    (classifyStep acc col v).measurement_name = acc.measurement_name ∧
    (classifyStep acc col v).measurement_value = acc.measurement_value := by
  simp only [classifyStep]
  split_ifs <;> first | exact ⟨rfl, rfl⟩ | simp_all

theorem classifyFold_meas_keep (pairs : List (String × Option ℚ)) :
    ∀ acc : NumSlots, acc.measurement_name ≠ "" →
      (pairs.foldl valueStep acc).measurement_name = acc.measurement_name ∧
      (pairs.foldl valueStep acc).measurement_value = acc.measurement_value := by
  induction pairs with
  | nil => intro acc _; exact ⟨rfl, rfl⟩
  | cons p rest ih =>
    intro acc hacc
    rw [List.foldl_cons]
    cases hp : p.2 with
    | none =>
      have : valueStep acc p = acc := by simp [valueStep, hp]
      rw [this]
      exact ih acc hacc
    | some v =>
      have hv : valueStep acc p = classifyStep acc p.1 v := by simp [valueStep, hp]
      obtain ⟨h1, h2⟩ := classifyStep_meas_keep acc p.1 v hacc
      rw [hv]
      obtain ⟨h3, h4⟩ := ih (classifyStep acc p.1 v) (by rw [h1]; exact hacc)
      exact ⟨h3.trans h1, h4.trans h2⟩

theorem classifyFold_generic_aux (pairs : List (String × Option ℚ)) :
    ∀ acc : NumSlots, acc.measurement_name = "" → acc.measurement_value = none →
      (∀ p ∈ pairs, p.1 ≠ "") →
      ((pairs.foldl valueStep acc).measurement_name,
        (pairs.foldl valueStep acc).measurement_value) =
        match firstUnmatched pairs with
        | some cv => (cv.1, some cv.2)
        | none => ("", none) := by
  induction pairs with
  | nil =>
    intro acc h1 h2 _
    simp [firstUnmatched, h1, h2]
  | cons p rest ih =>
    intro acc h1 h2 hne
    rw [List.foldl_cons]
    cases hp : p.2 with
    | none =>
      have hstep : valueStep acc p = acc := by simp [valueStep, hp]
      have hsel : unmatchedSel p = none := by simp [unmatchedSel, hp]
      have hfu : firstUnmatched (p :: rest) = firstUnmatched rest := by
        simp [firstUnmatched, List.findSome?_cons, hsel]
      rw [hstep, hfu]
      exact ih acc h1 h2 (fun q hq => hne q (List.mem_cons_of_mem p hq))
    | some v =>
      have hstep : valueStep acc p = classifyStep acc p.1 v := by simp [valueStep, hp]
      by_cases hm : matchesAnyRule p.1 = true
      · have hsel : unmatchedSel p = none := by simp [unmatchedSel, hp, hm]
        have hfu : firstUnmatched (p :: rest) = firstUnmatched rest := by
          simp [firstUnmatched, List.findSome?_cons, hsel]
        obtain ⟨k1, k2⟩ := classifyStep_meas_of_matched acc p.1 v hm
        rw [hstep, hfu]
        exact ih (classifyStep acc p.1 v) (k1.trans h1) (k2.trans h2)
          (fun q hq => hne q (List.mem_cons_of_mem p hq))
      · rw [Bool.not_eq_true] at hm
        have hsel : unmatchedSel p = some (p.1, v) := by simp [unmatchedSel, hp, hm]
        have hfu : firstUnmatched (p :: rest) = some (p.1, v) := by
          simp [firstUnmatched, List.findSome?_cons, hsel]
        obtain ⟨k1, k2⟩ := classifyStep_meas_of_unmatched acc p.1 v hm h1
        rw [hstep, hfu]
        have hcol : p.1 ≠ "" := hne p (List.mem_cons_self p rest)
        obtain ⟨h3, h4⟩ := classifyFold_meas_keep rest (classifyStep acc p.1 v)
          (by rw [k1]; exact hcol)
        rw [h3, h4, k1, k2]

/-- C8: per-row numerics classification.  (a) the concrete row with
columns `HR`, `SpO2`, `UnknownMetric`: `HR` does **not** match the
heart-rate rule (it lacks the substring `heart`) and, being the first
unmatched column, lands in the generic slot; `SpO2` fills the spo2 slot;
`UnknownMetric` is dropped because the generic slot is already occupied.
(b) a row none of whose columns contains both `hr` and `heart` leaves
heart_rate empty.  (c) the generic slot holds exactly the first
non-missing unmatched column (with its value), or stays empty — every
later unmatched column is dropped. -/
theorem C8_numerics_classification :
    (classifyRow [("HR", some 80), ("SpO2", some 98), ("UnknownMetric", some 5)] =
      { spo2 := some 98, measurement_name := "HR", measurement_value := some 80 }) ∧
    (∀ pairs : List (String × Option ℚ),
      (∀ p ∈ pairs, ¬(strContains (strLower p.1) "hr" = true ∧
        strContains (strLower p.1) "heart" = true)) →
      (classifyRow pairs).heart_rate = none) ∧
    (∀ pairs : List (String × Option ℚ), (∀ p ∈ pairs, p.1 ≠ "") →
      ((classifyRow pairs).measurement_name, (classifyRow pairs).measurement_value) =
        match firstUnmatched pairs with
        | some cv => (cv.1, some cv.2)
        | none => ("", none)) := by
  refine ⟨by decide, ?_, ?_⟩
  · intro pairs h
    exact classifyFold_heart_rate pairs {} h
  · intro pairs h
    exact classifyFold_generic_aux pairs {} rfl rfl h

/-- Witness for C8 on the row `[("HR", 80)]`: the column literally named
`HR` does not set heart_rate and fills the generic slot. -/
theorem C8_numerics_classification_witness :
    (∀ p ∈ [(("HR" : String), some (80 : ℚ))],
      ¬(strContains (strLower p.1) "hr" = true ∧ strContains (strLower p.1) "heart" = true)) ∧
    (∀ p ∈ [(("HR" : String), some (80 : ℚ))], p.1 ≠ "") ∧
    (classifyRow [("HR", some 80)]).heart_rate = none ∧
    ((classifyRow [("HR", some 80)]).measurement_name,
      (classifyRow [("HR", some 80)]).measurement_value) = ("HR", some 80) := by
  refine ⟨by decide, by decide, C8_numerics_classification.2.1 _ (by decide), ?_⟩
  rw [C8_numerics_classification.2.2 [("HR", some 80)] (by decide)]
  decide

/-! ## C9: a failed record header produces no rows anywhere -/

/-- C9: a record whose header read raises contributes zero rows to all
four tables, and the four tables of the whole run are exactly those of
the run without that record — every other record's rows, and their
order, are unaffected. -/
theorem C9_failed_record_no_rows (env : Env) (sk : Bool)
    (l1 l2 : List (String × String × Nat)) (r : String × String × Nat)
    (h : env.recHeader r.1 = none) :
    processRecord env sk r = ([], [], [], []) ∧
    extract_metadata env (l1 ++ r :: l2) sk = extract_metadata env (l1 ++ l2) sk := by
  have hr : processRecord env sk r = ([], [], [], []) := by
    unfold processRecord
    rw [h]
  refine ⟨hr, ?_⟩
  unfold extract_metadata
  simp [List.flatMap_append, List.flatMap_cons, hr]

/-- Witness for C9: with `bad`'s header unreadable, the run over
`[bad, good]` equals the run over `[good]`, which still emits one record
row. -/
theorem C9_failed_record_no_rows_witness :
    envC9.recHeader "p1/p10/bad" = none ∧
    processRecord envC9 false ("p1/p10/bad", "bad", 10) = ([], [], [], []) ∧
    extract_metadata envC9 [("p1/p10/bad", "bad", 10), ("p1/p11/good", "good", 11)] false =
      extract_metadata envC9 [("p1/p11/good", "good", 11)] false ∧
    (extract_metadata envC9 [("p1/p11/good", "good", 11)] false).records.length = 1 := by
  have h := C9_failed_record_no_rows envC9 false [] [("p1/p11/good", "good", 11)]
    ("p1/p10/bad", "bad", 10) (by decide)
  exact ⟨by decide, h.1, h.2, by decide⟩

/-! ## C10: the records-only updater refines the full extractor -/

theorem updateRow_eq_extractRow (rp rn : String) (pid : Nat) (h : RecordHeader) :
    UpdateRecords.buildRecordRow rp rn pid h = buildRecordRow rp rn pid h := rfl

/-- C10: for every environment and record list, `update_records.py`
writes exactly the rows that `extract_metadata.py` writes to
`waveform_records.csv` — same rows, same order — whether or not the full
extractor skips numerics. -/
theorem C10_update_records_refines_extract (env : Env)
    (records : List (String × String × Nat)) (sk : Bool) :
    UpdateRecords.extract_records_metadata env records =
      (extract_metadata env records sk).records := by
  induction records with
  | nil => rfl
  | cons r rest ih =>
    cases hh : env.recHeader r.1 with
    | none =>
      have h1 : UpdateRecords.extract_records_metadata env (r :: rest) =
          UpdateRecords.extract_records_metadata env rest := by
        simp [UpdateRecords.extract_records_metadata, List.flatMap_cons, hh]
      have h2 : (extract_metadata env (r :: rest) sk).records =
          (extract_metadata env rest sk).records := by
        simp [extract_metadata, List.flatMap_cons, processRecord, hh]
      rw [h1, h2, ih]
    | some hrec =>
      have h1 : UpdateRecords.extract_records_metadata env (r :: rest) =
          UpdateRecords.buildRecordRow r.1 r.2.1 r.2.2 hrec ::
            UpdateRecords.extract_records_metadata env rest := by
        simp [UpdateRecords.extract_records_metadata, List.flatMap_cons, hh]
      have h2 : (extract_metadata env (r :: rest) sk).records =
          buildRecordRow r.1 r.2.1 r.2.2 hrec :: (extract_metadata env rest sk).records := by
        simp [extract_metadata, List.flatMap_cons, processRecord, hh]
      rw [h1, h2, ih, updateRow_eq_extractRow]

/-! ## C4: corpus scanning -/

theorem mem_insertSorted {α : Type} (le : α → α → Bool) (x : α) (l : List α) (a : α) :
    a ∈ insertSorted le x l ↔ a = x ∨ a ∈ l := by
  induction l with
  | nil => simp [insertSorted]
  | cons y ys ih =>
    simp only [insertSorted]
    split_ifs with h
    · simp [List.mem_cons]
    · simp only [List.mem_cons, ih]
      tauto

theorem mem_sortByLe {α : Type} (le : α → α → Bool) (l : List α) (a : α) :
    a ∈ sortByLe le l ↔ a ∈ l := by
  induction l with
  | nil => simp [sortByLe]
  | cons x xs ih => simp [sortByLe, mem_insertSorted, ih]

theorem scanRecordDirs_ok (gname sname sid : String) (n : Nat)
    (hp : pyNatParse sid = some n) (rs : List RecEntry) :
    ∃ l, scanRecordDirs gname sname sid rs = .ok l ∧
      ∀ r ∈ rs, r.isDir = true → r.files.contains (r.name ++ ".hea") = true →
        (gname ++ "/" ++ sname ++ "/" ++ r.name, r.name, n) ∈ l := by
  induction rs with
  | nil => exact ⟨[], rfl, by simp⟩
  | cons r rest ih =>
    obtain ⟨tl, htl, hmem⟩ := ih
    by_cases hc : (r.isDir && r.files.contains (r.name ++ ".hea")) = true
    · refine ⟨(gname ++ "/" ++ sname ++ "/" ++ r.name, r.name, n) :: tl, ?_, ?_⟩
      · simp only [scanRecordDirs]
        rw [if_pos hc, hp, htl]
      · intro q hq hdir hhea
        rcases List.mem_cons.mp hq with h | h
        · subst h; exact List.mem_cons_self _ _
        · exact List.mem_cons_of_mem _ (hmem q h hdir hhea)
    · refine ⟨tl, ?_, ?_⟩
      · simp only [scanRecordDirs]
        rw [if_neg hc]
        exact htl
      · intro q hq hdir hhea
        rcases List.mem_cons.mp hq with h | h
        · subst h
          exact absurd (by rw [hdir, hhea]; rfl) hc
        · exact hmem q h hdir hhea

theorem scanRecordDirs_ok_of_none (gname sname sid : String) (rs : List RecEntry)
    (h : ∀ r ∈ rs, ¬(r.isDir = true ∧ r.files.contains (r.name ++ ".hea") = true)) :
    scanRecordDirs gname sname sid rs = .ok [] := by
  induction rs with
  | nil => rfl
  | cons r rest ih =>
    have hc : ¬((r.isDir && r.files.contains (r.name ++ ".hea")) = true) := by
      intro hb
      rw [Bool.and_eq_true] at hb
      exact h r (List.mem_cons_self r rest) hb
    simp only [scanRecordDirs]
    rw [if_neg hc]
    exact ih (fun q hq => h q (List.mem_cons_of_mem r hq))

theorem scanSubjectDirs_ok (gname : String) (ss : List SubjEntry)
    (hnum : ∀ s ∈ ss, s.isDir = true →
      (∃ r ∈ s.children, r.isDir = true ∧ r.files.contains (r.name ++ ".hea") = true) →
      (pyNatParse (s.name.drop 1)).isSome = true) :
    ∃ l, scanSubjectDirs gname ss = .ok l ∧
      ∀ s ∈ ss, s.isDir = true → ∀ r ∈ s.children, r.isDir = true →
        r.files.contains (r.name ++ ".hea") = true →
        ∀ n, pyNatParse (s.name.drop 1) = some n →
          (gname ++ "/" ++ s.name ++ "/" ++ r.name, r.name, n) ∈ l := by
  induction ss with
  | nil => exact ⟨[], rfl, by simp⟩
  | cons s rest ih =>
    obtain ⟨l2, hl2, hmem2⟩ := ih (fun q hq => hnum q (List.mem_cons_of_mem s hq))
    by_cases hdir : s.isDir = true
    · cases hp : pyNatParse (s.name.drop 1) with
      | some n =>
        obtain ⟨l1, hl1, hmem1⟩ := scanRecordDirs_ok gname s.name (s.name.drop 1) n hp
          (sortByLe (fun a b => strLe a.name b.name) s.children)
        refine ⟨l1 ++ l2, ?_, ?_⟩
        · simp only [scanSubjectDirs]
          rw [if_pos hdir, hl1, hl2]
        · intro q hq hqdir r hr hrdir hrhea m hm
          rcases List.mem_cons.mp hq with h | h
          · subst h
            rw [hp] at hm
            injection hm with hnm
            subst hnm
            exact List.mem_append_left _
              (hmem1 r ((mem_sortByLe _ _ _).mpr hr) hrdir hrhea)
          · exact List.mem_append_right _ (hmem2 q h hqdir r hr hrdir hrhea m hm)
      | none =>
        have hnoconf : ∀ r ∈ sortByLe (fun a b => strLe a.name b.name) s.children,
            ¬(r.isDir = true ∧ r.files.contains (r.name ++ ".hea") = true) := by
          intro r hr hcontra
          have hs : (pyNatParse (s.name.drop 1)).isSome = true :=
            hnum s (List.mem_cons_self s rest) hdir
              ⟨r, (mem_sortByLe _ _ _).mp hr, hcontra⟩
          rw [hp] at hs
          simp at hs
        have h1 := scanRecordDirs_ok_of_none gname s.name (s.name.drop 1) _ hnoconf
        refine ⟨l2, ?_, ?_⟩
        · simp only [scanSubjectDirs]
          rw [if_pos hdir, h1, hl2]
          exact rfl
        · intro q hq hqdir r hr hrdir hrhea m hm
          rcases List.mem_cons.mp hq with h | h
          · subst h
            rw [hp] at hm
            cases hm
          · exact hmem2 q h hqdir r hr hrdir hrhea m hm
    · refine ⟨l2, ?_, ?_⟩
      · simp only [scanSubjectDirs]
        rw [if_neg hdir, hl2]
        exact rfl
      · intro q hq hqdir r hr hrdir hrhea m hm
        rcases List.mem_cons.mp hq with h | h
        · subst h; exact absurd hqdir hdir
        · exact hmem2 q h hqdir r hr hrdir hrhea m hm

theorem scanGroupDirs_ok (gs : List GroupEntry)
    (hnum : ∀ g ∈ gs, g.isDir = true →
      ∀ s ∈ g.children, s.isDir = true → strStartsWith s.name "p" = true →
      (∃ r ∈ s.children, r.isDir = true ∧ r.files.contains (r.name ++ ".hea") = true) →
      (pyNatParse (s.name.drop 1)).isSome = true) :
    ∃ l, scanGroupDirs gs = .ok l ∧
      ∀ g ∈ gs, g.isDir = true →
        ∀ s ∈ g.children, s.isDir = true → strStartsWith s.name "p" = true →
        ∀ r ∈ s.children, r.isDir = true → r.files.contains (r.name ++ ".hea") = true →
        ∀ n, pyNatParse (s.name.drop 1) = some n →
          (g.name ++ "/" ++ s.name ++ "/" ++ r.name, r.name, n) ∈ l := by
  induction gs with
  | nil => exact ⟨[], rfl, by simp⟩
  | cons g rest ih =>
    obtain ⟨l2, hl2, hmem2⟩ := ih (fun q hq => hnum q (List.mem_cons_of_mem g hq))
    by_cases hdir : g.isDir = true
    · obtain ⟨l1, hl1, hmem1⟩ := scanSubjectDirs_ok g.name
        (sortByLe (fun a b => strLe a.name b.name)
          (g.children.filter (fun s => strStartsWith s.name "p")))
        (by
          intro s hs hsdir hconf
          have hs2 := (mem_sortByLe _ _ _).mp hs
          rw [List.mem_filter] at hs2
          exact hnum g (List.mem_cons_self g rest) hdir s hs2.1 hsdir hs2.2 hconf)
      refine ⟨l1 ++ l2, ?_, ?_⟩
      · simp only [scanGroupDirs]
        rw [if_pos hdir, hl1, hl2]
      · intro q hq hqdir s hs hsdir hsp r hr hrdir hrhea m hm
        rcases List.mem_cons.mp hq with h | h
        · subst h
          refine List.mem_append_left _ (hmem1 s ?_ hsdir r hr hrdir hrhea m hm)
          rw [mem_sortByLe, List.mem_filter]
          exact ⟨hs, hsp⟩
        · exact List.mem_append_right _ (hmem2 q h hqdir s hs hsdir hsp r hr hrdir hrhea m hm)
    · refine ⟨l2, ?_, ?_⟩
      · simp only [scanGroupDirs]
        rw [if_neg hdir, hl2]
        exact rfl
      · intro q hq hqdir s hs hsdir hsp r hr hrdir hrhea m hm
        rcases List.mem_cons.mp hq with h | h
        · subst h; exact absurd hqdir hdir
        · exact hmem2 q h hqdir s hs hsdir hsp r hr hrdir hrhea m hm

/-- C4 counterexample: in `treeC4` the subject directory `pabc` fails the
naming pattern (non-numeric id after the `p` prefix) and contains a
conforming record, so `int('abc')` raises during scanning: the scan
aborts with an error instead of silently skipping the directory, and the
conforming record `p100/p123/r2` — returned when the offending directory
is removed — is not returned either. -/
theorem C4_scan_counterexample :
    find_all_records treeC4 = .error "invalid literal for int() with base 10: abc" ∧
    find_all_records treeC4good = .ok [("p100/p123/r2", "r2", 123)] := by
  exact ⟨rfl, rfl⟩

/-- C4 (amended): a missing root directory is reported as a fatal
precondition violation before scanning; directories failing the `p`
naming pattern, non-directory entries and record directories without a
self-named header are silently skipped while every conforming record
directory still contributes its tuple — but only under the proviso that
every `p`-prefixed subject directory holding a conforming record has a
numeric id after the prefix: such a directory with a non-numeric id is
not skipped, it aborts the whole scan with an error (see the
counterexample). -/
theorem C4_scan_skips_and_reports (t : FsTree)
    (hnum : ∀ g ∈ t.entries, g.isDir = true → strStartsWith g.name "p" = true →
      ∀ s ∈ g.children, s.isDir = true → strStartsWith s.name "p" = true →
      (∃ r ∈ s.children, r.isDir = true ∧ r.files.contains (r.name ++ ".hea") = true) →
      (pyNatParse (s.name.drop 1)).isSome = true) :
    (∃ l, find_all_records t = .ok l ∧
      ∀ g ∈ t.entries, g.isDir = true → strStartsWith g.name "p" = true →
        ∀ s ∈ g.children, s.isDir = true → strStartsWith s.name "p" = true →
        ∀ r ∈ s.children, r.isDir = true → r.files.contains (r.name ++ ".hea") = true →
        ∀ n, pyNatParse (s.name.drop 1) = some n →
          (g.name ++ "/" ++ s.name ++ "/" ++ r.name, r.name, n) ∈ l ∧
          find_all_records_from_root (some t) = .ok l) ∧
    find_all_records_from_root none = .error "Data directory not found" := by
  obtain ⟨l, hok, hmem⟩ := scanGroupDirs_ok
    (sortByLe (fun a b => strLe a.name b.name)
      (t.entries.filter (fun g => strStartsWith g.name "p")))
    (by
      intro g hg hgdir s hs hsdir hsp hconf
      have hg2 := (mem_sortByLe _ _ _).mp hg
      rw [List.mem_filter] at hg2
      exact hnum g hg2.1 hgdir hg2.2 s hs hsdir hsp hconf)
  refine ⟨⟨l, hok, ?_⟩, rfl⟩
  intro g hg hgdir hgp s hs hsdir hsp r hr hrdir hrhea n hn
  refine ⟨hmem g ?_ hgdir s hs hsdir hsp r hr hrdir hrhea n hn, ?_⟩
  · rw [mem_sortByLe, List.mem_filter]
    exact ⟨hg, hgp⟩
  · simp only [find_all_records_from_root]
    exact hok

/-- Witness for C4 on `treeC4w`: the scan succeeds despite the
non-conforming directories present at every level, and the conforming
record's tuple is returned. -/
theorem C4_scan_skips_witness :
    ∃ l, find_all_records treeC4w = .ok l ∧ ("p1/p12/r", "r", 12) ∈ l := by
  obtain ⟨⟨l, hok, hmem⟩, -⟩ := C4_scan_skips_and_reports treeC4w (by decide)
  refine ⟨l, hok, ?_⟩
  have h := hmem grpC4w (by decide) (by decide) (by decide) subjC4w (by decide) (by decide)
    (by decide) recC4w (by decide) (by decide) (by decide) 12 (by decide)
  exact h.1
